import Mathlib

/-!
Verification of the booker repository against its specification.

The Go source is shallowly embedded: each Go function used by a claim is
translated into an executable Lean definition that mirrors the source
control flow (early returns become Option/Except, loops become recursion,
machine integers become Nat/Int with explicit wrap-around where it can
matter).  Spec-side predicates, written from the specification text for
comparison, carry the suffix Claim or Spec in their names.
-/

namespace Booker

/-! ## ISBN utilities (internal/book, package book) -/

/-- The blacklist of placeholder ISBNs (var badIsbns in the source). -/
def badIsbns : List String :=
  ["0123456789", "0000000000", "1111111111", "2222222222", "3333333333",
   "4444444444", "5555555555", "6666666666", "7777777777", "8888888888",
   "9999999999"]

/-- strings.ToUpper for the ASCII strings this code handles (the Lean
String.toUpper is avoided only because its byte-level implementation does
not reduce in the kernel). -/
def toUpperStr (s : String) : String :=
  String.mk (s.data.map Char.toUpper)

/-- One step of the character loop in IsIsbnCandidate: the Go loop rejects
any rune that is neither the literal X nor in the digit range, scanning the
upper-cased string. -/
def candLoop : List Char → Bool
  | [] => true
  | c :: cs =>
    if c ≠ 'X' ∧ c > '9' then false
    else if c ≠ 'X' ∧ c < '0' then false
    else candLoop cs

/-- book.IsIsbnCandidate: length must be 10 or 13, every character of the
upper-cased string must be X or a digit, and the original string must not
be blacklisted. -/
def IsIsbnCandidate (s : String) : Bool :=
  if s.length ≠ 10 ∧ s.length ≠ 13 then false
  else if candLoop (toUpperStr s).data then ! (badIsbns.contains s) else false

/-- The loop of ISBN10.IsValid.  The Go loop walks indexed characters,
adds (10 - i) * digit for digits, returns false early when X occurs away
from the last index and adds 10 when X is last, and silently skips every
other character.  The early return is modelled by Option. -/
def isbn10Loop : List Char → Nat → Nat → Int → Option Int
  | [], _, _, sum => some sum
  | c :: cs, total, i, sum =>
    if '0' ≤ c ∧ c ≤ '9' then
      isbn10Loop cs total (i + 1) (sum + (10 - (i : Int)) * ((c.toNat : Int) - 48))
    else if c = 'X' then
      if i ≠ total - 1 then none
      else isbn10Loop cs total (i + 1) (sum + 10)
    else isbn10Loop cs total (i + 1) sum

/-- book.ISBN10.IsValid. -/
def isbn10IsValid (s : String) : Bool :=
  match isbn10Loop s.data s.length 0 0 with
  | none => false
  | some sum => sum % 11 == 0

/-- uint(c - rune 48) in Go: a 64-bit conversion that wraps for characters
below the digit range. -/
def ctoi13 (c : Char) : Nat :=
  (c.toNat + 2 ^ 64 - 48) % 2 ^ 64

/-- One iteration of the ISBN13.IsValid loop on the (multiplier, sum)
state: sum and multiplier are Go uint (64-bit, wrap-around); the
multiplier is xor-ed with 2 each step, toggling 1 and 3. -/
def isbn13Step (p : Nat × Nat) (c : Char) : Nat × Nat :=
  (p.1 ^^^ 2, (p.2 + p.1 * ctoi13 c) % 2 ^ 64)

/-- book.ISBN13.IsValid: the character loop folded over the string,
starting from multiplier 1 and sum 0. -/
def isbn13IsValid (s : String) : Bool :=
  (s.data.foldl isbn13Step (1, 0)).2 % 10 == 0

/-! Spec-side checksum definitions, written from the claim text. -/

/-- Weighted sum from the claim: weights 10 down to 1 over positions,
X counting as 10 (at the last position of a ten-character string the
weight is 1, so a flat 10 agrees with weight times value). -/
def isbn10ClaimSum (cs : List Char) (start : Nat) : Int :=
  match cs with
  | [] => 0
  | c :: rest =>
    (if '0' ≤ c ∧ c ≤ '9' then (10 - (start : Int)) * ((c.toNat : Int) - 48)
     else if c = 'X' then 10 else 0) + isbn10ClaimSum rest (start + 1)

/-- Claimed ISBN-10 validity: X permitted only as the last character, and
the weighted sum divisible by 11. -/
def isbn10ClaimValid (s : String) : Prop :=
  (∀ i, s.data.get? i = some 'X' → i = s.length - 1) ∧
    isbn10ClaimSum s.data 0 % 11 = 0

/-- Alternating 1/3-weighted digit sum from the claim, starting with the
given multiplier. -/
def isbn13ClaimSum (cs : List Char) (mult : Nat) : Nat :=
  match cs with
  | [] => 0
  | c :: rest => mult * (c.toNat - 48) + isbn13ClaimSum rest (mult ^^^ 2)

/-- Character class hypothesis for the ISBN-10 equivalence: digits or X. -/
def digitsOrX (s : String) : Prop :=
  ∀ c ∈ s.data, c = 'X' ∨ ('0' ≤ c ∧ c ≤ '9')

/-- Character class hypothesis for the ISBN-13 equivalence: digits only. -/
def allDigits (s : String) : Prop :=
  ∀ c ∈ s.data, '0' ≤ c ∧ c ≤ '9'

/-- Candidate predicate written from the claim text of C7: length 10 or 13,
every character a digit except that X or x may appear only as the terminal
character of a length-10 value, and not blacklisted. -/
def candidateClaim (s : String) : Prop :=
  (s.length = 10 ∨ s.length = 13) ∧
    (∀ p ∈ s.data.enum,
      ('0' ≤ p.2 ∧ p.2 ≤ '9') ∨
        ((p.2 = 'X' ∨ p.2 = 'x') ∧ s.length = 10 ∧ p.1 = 9)) ∧
    ¬ s ∈ badIsbns

/-! ## Regex-based ISBN extraction (internal/util/util.go)

The source calls the Go regexp package with the patterns
Isbn10Pattern and Isbn13Pattern, both of the form A+ B for two character
classes A and B.  Go regexps use leftmost, greedy matching: at the
leftmost position where a match exists, the A+ part consumes the maximal
run of class-A characters and then backs off just enough for the final
class-B character to match.  For a pattern of this shape that means: the
match starting at a position with maximal class-A run r followed by rest
ends either at the first rest character (when it is in B but not A) or at
the last position strictly inside the run (beyond the first) holding a
class-B character.  If no end position exists, no match starts anywhere
inside the run (the same search on a sub-run also finds no class-B
character), so the scan resumes after the run. -/

/-- Class A of both patterns: digits, hyphen, whitespace.  The Go regexp
class backslash-s is tab, newline, form feed, carriage return, space. -/
def isbnRunChar (c : Char) : Bool :=
  ('0' ≤ c ∧ c ≤ '9') ∨ c = '-' ∨ c = '\t' ∨ c = '\n' ∨
    c = '\x0c' ∨ c = '\r' ∨ c = ' '

/-- Class B of Isbn10Pattern: digits, X, x. -/
def isbn10EndChar (c : Char) : Bool :=
  ('0' ≤ c ∧ c ≤ '9') ∨ c = 'X' ∨ c = 'x'

/-- Class B of Isbn13Pattern: digits. -/
def isbn13EndChar (c : Char) : Bool :=
  '0' ≤ c ∧ c ≤ '9'

/-- Index of the last class-B character of a list, if any. -/
def lastEndIdx (endC : Char → Bool) : List Char → Option Nat
  | [] => none
  | c :: cs =>
    match lastEndIdx endC cs with
    | some j => some (j + 1)
    | none => if endC c then some 0 else none

/-- One match attempt at the current position: the maximal class-A run,
then the greedy choice of the final class-B character as described above.
Returns the match and the remaining text. -/
def tryMatch (runC endC : Char → Bool) (cs : List Char) :
    Option (List Char × List Char) :=
  let run := cs.takeWhile runC
  let rest := cs.dropWhile runC
  if run.length = 0 then none
  else
    match rest with
    | d :: ds =>
      if endC d ∧ ¬ runC d then some (run ++ [d], ds)
      else
        match lastEndIdx endC (run.drop 1) with
        | some j => some (run.take (j + 2), run.drop (j + 2) ++ rest)
        | none => none
    | [] =>
      match lastEndIdx endC (run.drop 1) with
      | some j => some (run.take (j + 2), run.drop (j + 2))
      | none => none

/-- FindAllString for a pattern A+ B, with fuel for termination; each step
either consumes a non-empty match or advances past a failed run or a
non-class-A character. -/
def findAllAux (runC endC : Char → Bool) : Nat → List Char → List (List Char)
  | 0, _ => []
  | _ + 1, [] => []
  | fuel + 1, c :: cs =>
    match tryMatch runC endC (c :: cs) with
    | some (m, rest) => m :: findAllAux runC endC fuel rest
    | none =>
      if runC c then
        findAllAux runC endC fuel ((c :: cs).dropWhile runC)
      else findAllAux runC endC fuel cs

/-- All non-overlapping matches of a pattern A+ B in a string. -/
def findAllMatches (runC endC : Char → Bool) (text : String) : List String :=
  (findAllAux runC endC (text.data.length + 1) text.data).map
    (fun m => String.mk m)

/-- The cleaning step of identifyIsbns: the regexp replace of every
whitespace or hyphen character with the empty string. -/
def cleanIsbn (occ : String) : String :=
  String.mk (occ.data.filter
    (fun c => ¬ (c = '-' ∨ c = '\t' ∨ c = '\n' ∨ c = '\x0c' ∨ c = '\r' ∨ c = ' ')))

/-- util.identifyIsbns: find all pattern occurrences, clean each, keep the
upper-cased cleaned value when it is a candidate. -/
def identifyIsbns (runC endC : Char → Bool) (text : String) : List String :=
  (findAllMatches runC endC text).filterMap (fun occ =>
    let clean := cleanIsbn occ
    if IsIsbnCandidate clean then some (toUpperStr clean) else none)

/-- util.IdentifyIsbn10s: identified occurrences filtered by the ISBN-10
checksum. -/
def IdentifyIsbn10s (text : String) : List String :=
  (identifyIsbns isbnRunChar isbn10EndChar text).filter isbn10IsValid

/-- util.IdentifyIsbn13s. -/
def IdentifyIsbn13s (text : String) : List String :=
  (identifyIsbns isbnRunChar isbn13EndChar text).filter isbn13IsValid

/-! ## Levenshtein distance (internal/util/util.go)

The source function follows the two-matrix-row presentation it cites, but
deviates from it in three ways: the rows have length n rather than n + 1,
the loops stop at m - 1 and n - 1 so the final characters never take part,
and the Go slice assignment previousDistances = currentDistances makes the
two row variables alias one array from the second outer iteration on, so
the substitution cost then reads the current row instead of the previous
one.  The model reproduces all three.  Reading the final cell models the
Go indexing previousDistances[n-1], which panics for n = 0; the model
returns a default there and no theorem evaluates that case. -/

/-- The inner column loop of the first outer iteration, where the two rows
are still distinct arrays. -/
def levLoopSep (a0 : Char) (bs : List Char) (prev : List Int) :
    Nat → Nat → List Int → List Int
  | 0, _, curr => curr
  | steps + 1, j, curr =>
    let deletionCost := prev.getD (j + 1) 0 + 1
    let insertionCost := curr.getD j 0 + 1
    let substitutionCost :=
      prev.getD j 0 + (if a0 = bs.getD j ' ' then 0 else 1)
    levLoopSep a0 bs prev steps (j + 1)
      (curr.set (j + 1) (min deletionCost (min insertionCost substitutionCost)))

/-- The inner column loop of every later outer iteration: both row
variables alias one array, so reads of the previous row at column j see
the value already written in this iteration. -/
def levLoopAliased (ai : Char) (bs : List Char) :
    Nat → Nat → List Int → List Int
  | 0, _, d => d
  | steps + 1, j, d =>
    let deletionCost := d.getD (j + 1) 0 + 1
    let insertionCost := d.getD j 0 + 1
    let substitutionCost := d.getD j 0 + (if ai = bs.getD j ' ' then 0 else 1)
    levLoopAliased ai bs steps (j + 1)
      (d.set (j + 1) (min deletionCost (min insertionCost substitutionCost)))

/-- The outer row loop from the second iteration on. -/
def levOuterAliased (as bs : List Char) : Nat → Nat → List Int → List Int
  | 0, _, d => d
  | steps + 1, i, d =>
    let d0 := d.set 0 ((i : Int) + 1)
    let d1 := levLoopAliased (as.getD i ' ') bs (bs.length - 1) 0 d0
    levOuterAliased as bs steps (i + 1) d1

/-- util.LevenshteinDistance, exactly as implemented. -/
def LevenshteinDistance (a b : String) : Int :=
  let as := a.data
  let bs := b.data
  let m := as.length
  let n := bs.length
  let prev0 : List Int := (List.range n).map (fun k => (k : Int))
  if m < 2 then prev0.getD (n - 1) 0
  else
    let curr0 := (List.replicate n (0 : Int)).set 0 1
    let d1 := levLoopSep (as.getD 0 ' ') bs prev0 (n - 1) 0 curr0
    (levOuterAliased as bs (m - 2) 1 d1).getD (n - 1) 0

/-- The standard reference definition of Levenshtein edit distance, the
one named by claim C5. -/
def levenshteinSpec : List Char → List Char → Nat
  | [], ys => ys.length
  | x :: xs, [] => xs.length + 1
  | x :: xs, y :: ys =>
    if x = y then levenshteinSpec xs ys
    else 1 + min (levenshteinSpec xs ys)
      (min (levenshteinSpec (x :: xs) ys) (levenshteinSpec xs (y :: ys)))
termination_by xs ys => xs.length + ys.length
decreasing_by all_goals simp_arith

/-! ## Book results and best-result selection (package book) -/

/-- Go float64 as used by this code: the only operations are the IsNaN
test and ordering comparison, under which NaN compares false with
everything.  No float arithmetic occurs, so exact rationals model the
remaining values faithfully. -/
inductive GoFloat
  | nan
  | val (q : ℚ)
deriving DecidableEq, Repr

/-- Strict greater-than on Go floats: false whenever either side is NaN. -/
def GoFloat.gtF : GoFloat → GoFloat → Bool
  | .val a, .val b => a > b
  | _, _ => false

/-- book.BookResult. -/
structure BookResult where
  filepath : String
  title : Option String
  authors : Option (List String)
  isbn10 : Option String
  isbn13 : Option String
  uom : Option String
  lowYear : Option Nat
  highYear : Option Nat
  publishDate : Option String
  confidence : GoFloat
  sourceProviderName : String
deriving DecidableEq, Repr

/-- The Go zero value of book.BookResult. -/
def zeroBookResult : BookResult :=
  { filepath := "", title := none, authors := none, isbn10 := none,
    isbn13 := none, uom := none, lowYear := none, highYear := none,
    publishDate := none, confidence := .val 0, sourceProviderName := "" }

/-- One iteration of the ChooseBestResult loop on the (highest
confidence, best book) state: NaN confidences are skipped, a strictly
greater confidence replaces the best. -/
def chooseStep (acc : ℚ × Option BookResult) (br : BookResult) :
    ℚ × Option BookResult :=
  match br.confidence with
  | .nan => acc
  | .val c => if c > acc.1 then (c, some br) else acc

/-- book.ChooseBestResult: skip NaN confidences, keep the first result
whose confidence strictly exceeds the running best, starting from 0. -/
def ChooseBestResult (results : List BookResult) : Except String BookResult :=
  if results.length = 0 then .error "no results"
  else
    match (results.foldl chooseStep (0, none)).2 with
    | none => .error "none of the results had a confidence"
    | some best => .ok best

/-! ## Google provider (internal/providers/google.go) -/

/-- A decoded industry identifier of a Google volume. -/
structure GoogleIdentifier where
  idType : String
  identifier : String
deriving DecidableEq, Repr

/-- volumeInfo of a Google item. -/
structure GoogleVolumeInfo where
  title : String
  authors : List String
  industryIdentifiers : List GoogleIdentifier
  publishedDate : String
deriving DecidableEq, Repr

/-- One item of a Google response. -/
structure GoogleItem where
  volumeInfo : GoogleVolumeInfo
deriving DecidableEq, Repr

/-- A decoded Google response. -/
structure GoogleResponse where
  totalItems : Int
  items : List GoogleItem
deriving DecidableEq, Repr

/-- The observable outcome of the HTTP GET performed by Google.FindResult:
either the request itself fails, or it yields a status code and a body
that the JSON decoder either rejects or decodes. -/
inductive GoogleHttp
  | getError (msg : String)
  | response (statusCode : Nat) (decoded : Except String GoogleResponse)

/-- strings.ToLower for the ASCII strings this code handles. -/
def toLowerStr (s : String) : String :=
  String.mk (s.data.map Char.toLower)

/-- Splitting a character list on a separator, used by the base-name
model below. -/
def splitChar (sep : Char) : List Char → List (List Char)
  | [] => [[]]
  | c :: cs =>
    match splitChar sep cs with
    | [] => [[c]]
    | g :: gs => if c = sep then [] :: g :: gs else (c :: g) :: gs

/-- path/filepath.Base on slash paths: the last non-empty path element,
a dot for the empty path, a slash when only separators remain. -/
def baseName (p : String) : String :=
  if p = "" then "."
  else
    let parts := (splitChar '/' p.data).filter (fun g => g.length ≠ 0)
    match parts.getLast? with
    | some x => String.mk x
    | none => "/"

/-- The inner selection loop of Google.FindResult: the magic sentinel
999999999 and a strict less-than update, so ties keep the first item. -/
def googleSelect (filename : String) (items : List GoogleItem) :
    Int × Option GoogleItem :=
  items.foldl
    (fun (acc : Int × Option GoogleItem) item =>
      let distance := LevenshteinDistance item.volumeInfo.title filename
      if distance < acc.1 then (distance, some item) else acc)
    (999999999, none)

/-- The industry-identifier switch of Google.FindResult, folding the
lower-cased identifier types into the isbn10/isbn13/uom slots. -/
def googleIdentifiers (ids : List GoogleIdentifier) :
    Option String × Option String × Option String :=
  ids.foldl
    (fun (acc : Option String × Option String × Option String) idf =>
      let t := toLowerStr idf.idType
      if t = "isbn_10" then (some idf.identifier, acc.2.1, acc.2.2)
      else if t = "isbn_13" then (acc.1, some idf.identifier, acc.2.2)
      else if t = "uom" then (acc.1, acc.2.1, some idf.identifier)
      else acc)
    (none, none, none)

/-- Google.FindResult over the observable HTTP outcome: returns the
result, the error and the status code exactly along the source paths. -/
def googleFindResult (h : GoogleHttp) (_isbn filePath : String) :
    BookResult × Option String × Nat :=
  match h with
  | .getError e => (zeroBookResult, some e, 0)
  | .response statusCode decoded =>
    if statusCode ≠ 200 then
      (zeroBookResult,
        some ("google returned bad status code " ++ toString statusCode),
        statusCode)
    else
      match decoded with
      | .error e => (zeroBookResult, some e, statusCode)
      | .ok result =>
        if result.totalItems = 0 then (zeroBookResult, none, statusCode)
        else
          let filename := baseName filePath
          match (googleSelect filename result.items).2 with
          | none =>
            (zeroBookResult,
              some "unable to identify a good match from multiple returned works",
              statusCode)
          | some bestResult =>
            let ids := googleIdentifiers bestResult.volumeInfo.industryIdentifiers
            ({ filepath := filePath,
               title := some bestResult.volumeInfo.title,
               authors := some bestResult.volumeInfo.authors,
               isbn10 := ids.1,
               isbn13 := ids.2.1,
               uom := ids.2.2,
               lowYear := none,
               highYear := none,
               publishDate := some bestResult.volumeInfo.publishedDate,
               confidence := .val 100,
               sourceProviderName := "google" }, none, statusCode)

/-! ## Rate-limited provider wrapper (package providers, Generic) -/

/-- The mutable state of a Generic wrapper: the per-ISBN cache and the
self-disable latch.  The rate limiter carries no observable state beyond
whether a tick was consumed, which the lookup outcome records. -/
structure WrapperState where
  cache : List (String × BookResult)
  disabled : Bool
deriving DecidableEq, Repr

/-- sync.Map Load. -/
def cacheLoad (cache : List (String × BookResult)) (isbn : String) :
    Option BookResult :=
  (cache.find? (fun kv => kv.1 == isbn)).map (fun kv => kv.2)

/-- sync.Map Store: the new binding shadows any older one. -/
def cacheStore (cache : List (String × BookResult)) (isbn : String)
    (r : BookResult) : List (String × BookResult) :=
  (isbn, r) :: cache

/-- The inner provider behind a Generic wrapper: a name and FindResult. -/
structure InnerProvider where
  name : String
  findRes : String → String → BookResult × Option String × Nat

/-- The outcome of one Generic.findResult call: the returned pair, the new
wrapper state, and whether a rate-limiter tick was consumed and the inner
provider called. -/
structure LookupOutcome where
  result : BookResult
  err : Option String
  state : WrapperState
  tickConsumed : Bool
  innerCalled : Bool
deriving Repr

/-- Generic.findResult: cache hit first, then the disabled latch, then a
tick, the inner call, the 429 self-disable path, and the store of failed
results. -/
def findResult (inner : InnerProvider) (g : WrapperState)
    (isbn filePath : String) : LookupOutcome :=
  match cacheLoad g.cache isbn with
  | some cachedResult =>
    { result := cachedResult, err := none, state := g,
      tickConsumed := false, innerCalled := false }
  | none =>
    if g.disabled then
      { result := zeroBookResult,
        err := some (inner.name ++
          " provider self-disabled, probably due to rate limit"),
        state := g, tickConsumed := false, innerCalled := false }
    else
      let (result, err, statusCode) := inner.findRes isbn filePath
      if statusCode = 429 then
        { result := zeroBookResult, err := err,
          state := { g with disabled := true },
          tickConsumed := true, innerCalled := true }
      else
        { result := result, err := err,
          state := if err.isSome then
              { g with cache := cacheStore g.cache isbn result }
            else g,
          tickConsumed := true, innerCalled := true }

/-- providers.SearchTerms. -/
structure SearchTerms where
  isbn10s : List String
  isbn13s : List String
  filepath : String
deriving DecidableEq, Repr

/-- The per-ISBN loop of Generic.GetBookMetadata: abort on the first
error, otherwise collect the per-ISBN results in order. -/
def gbmLoop (inner : InnerProvider) (filePath : String) :
    List String → WrapperState → List BookResult →
    Except String (List BookResult) × WrapperState
  | [], g, acc => (.ok acc, g)
  | isbn :: rest, g, acc =>
    let r := findResult inner g isbn filePath
    match r.err with
    | some e => (.error e, r.state)
    | none => gbmLoop inner filePath rest r.state (acc ++ [r.result])

/-- Generic.GetBookMetadata: the widened ISBN-10s followed by the
ISBN-13s, one lookup each. -/
def getBookMetadata (inner : InnerProvider) (g : WrapperState)
    (search : SearchTerms) : Except String (List BookResult) × WrapperState :=
  gbmLoop inner search.filepath (search.isbn10s ++ search.isbn13s) g []

/-! ## Streaming JSON writer (internal/util/jsonstreamwriter.go)

The file holds two writers.  The non-generic JsonStreamWriter has a
consumer loop with a batch path (read the channel depth when it is at
least the threshold, then one blocking single read); the generic
JsonStreamWriter over a type parameter has a consumer loop with only the
single-item path.  Both are modelled on a quiescent channel: a queue of
already-sent items followed by channel close. -/

/-- One queued item: key and serialized bytes. -/
structure WItem where
  key : String
  data : String
deriving DecidableEq, Repr

/-- One action of a consumer loop: a WriteBatch call or a WriteItem
call.  Either call acquires the write lock once and flushes once. -/
inductive WEvent
  | batch (items : List WItem)
  | single (item : WItem)
deriving DecidableEq, Repr

/-- Lock acquisitions performed by an event (one per WriteBatch or
WriteItem call). -/
def lockAcquisitions : WEvent → Nat
  | _ => 1

/-- File flushes performed by an event (one Sync per WriteBatch or
WriteItem call). -/
def flushes : WEvent → Nat
  | _ => 1

/-- The batch threshold of the non-generic writer. -/
def batchThreshold : Nat := 10

/-- The consumer loop of the non-generic JsonStreamWriter on a quiescent
queue: read the depth, batch exactly that many items when at the
threshold, then block on a single read (which on the drained, closed
channel terminates the loop).  Fuel only discharges termination; the top
call supplies enough for the whole queue. -/
def writerLoopAux : Nat → List WItem → List WEvent
  | 0, _ => []
  | fuel + 1, q =>
    let inQueue := q.length
    let batchEvs : List WEvent :=
      if inQueue ≥ batchThreshold then [.batch (q.take inQueue)] else []
    let q1 := if inQueue ≥ batchThreshold then q.drop inQueue else q
    match q1 with
    | [] => batchEvs
    | item :: rest => batchEvs ++ .single item :: writerLoopAux fuel rest

/-- The non-generic consumer loop on a quiescent queue. -/
def writerLoop (q : List WItem) : List WEvent :=
  writerLoopAux (q.length + 1) q

/-- The consumer loop of the generic JsonStreamWriter on a quiescent
queue: it has no batch path and handles every item singly. -/
def writerLoopGeneric : List WItem → List WEvent
  | [] => []
  | item :: rest => .single item :: writerLoopGeneric rest

/-! ## Pipeline stage routing and the book manager workers (the pipeline
BookManager together with pipeline.Stage.Run).  The model follows a single
book through the three stages and the collector, threading the processed
book map; stage concurrency is irrelevant to a single item because each
item passes the stages strictly in order. -/

/-- book.Book, the pipeline flavor with optional identifier fields. -/
structure Book where
  title : String
  authors : List String
  isbn10 : Option String
  isbn13 : Option String
  uom : Option String
  lowYear : Option Nat
  highYear : Option Nat
  filepath : String
  errorMessage : String
deriving DecidableEq, Repr

/-- The Go zero value of book.Book. -/
def emptyBook : Book :=
  { title := "", authors := [], isbn10 := none, isbn13 := none,
    uom := none, lowYear := none, highYear := none, filepath := "",
    errorMessage := "" }

/-- book.BookResult.ToBook.  The Go Authors field calls MustGet, which
panics on an absent value; the model defaults to the empty list and no
theorem exercises that path with an absent value. -/
def bookResultToBook (br : BookResult) : Book :=
  { title := match br.title with | some t => t | none => ""
    authors := match br.authors with | some a => a | none => []
    isbn10 := br.isbn10
    isbn13 := br.isbn13
    uom := br.uom
    lowYear := br.lowYear
    highYear := br.highYear
    filepath := br.filepath
    errorMessage := "" }

/-- The runtime shape of a pipeline payload, the tag the fail-handler
dispatches on. -/
inductive Item
  | bk (b : Book)
  | terms (t : SearchTerms)
  | results (rs : List BookResult)
deriving DecidableEq, Repr

/-- An extractor as the extract stage sees it: ExtractText on a book. -/
abbrev ExtractorFn : Type := Book → Except String String

/-- A provider as the search stage sees it: GetBookMetadata on terms. -/
abbrev ProviderFn : Type := SearchTerms → Except String (List BookResult)

/-- BookManager.extract: collect texts of live extractors that succeed,
fail on an empty live set or no texts, else identify ISBNs and emit
SearchTerms. -/
def extractWorker (liveExtractors : List ExtractorFn) (b : Book) :
    Option Item × Option String :=
  if liveExtractors.length = 0 then
    (none, some "error: no live extractors found")
  else
    let texts := liveExtractors.filterMap (fun ex =>
      match ex b with
      | .ok t => some t
      | .error _ => none)
    if texts.length = 0 then (some (.bk b), some "no texts extracted")
    else
      let isbn10s := texts.foldl (fun acc t => acc ++ IdentifyIsbn10s t) []
      let isbn13s := texts.foldl (fun acc t => acc ++ IdentifyIsbn13s t) []
      (some (.terms ⟨isbn10s, isbn13s, b.filepath⟩), none)

/-- The merged provider result list of BookManager.search: per-provider
errors are skipped, successful lists are concatenated in order. -/
def mergedResults (liveProviders : List ProviderFn) (search : SearchTerms) :
    List BookResult :=
  liveProviders.foldl
    (fun acc p =>
      match p search with
      | .ok rs => acc ++ rs
      | .error _ => acc)
    []

/-- BookManager.search: dry-run and no-live-providers failures return a
nil result, the empty-merged-list failure returns the empty slice (a
non-nil interface value) together with the error. -/
def searchWorker (dryRun : Bool) (liveProviders : List ProviderFn)
    (search : SearchTerms) : Option Item × Option String :=
  if dryRun then (none, some "dry run")
  else if liveProviders.length = 0 then
    (none, some "error: no live providers found")
  else
    let results := mergedResults liveProviders search
    if results.length = 0 then
      (some (.results results), some "error: no results found")
    else (some (.results results), none)

/-- BookManager.collate: failure returns the zero Book together with the
error, success converts the winner. -/
def collateWorker (rs : List BookResult) : Option Item × Option String :=
  match ChooseBestResult rs with
  | .error e => (some (.bk emptyBook), some ("could not collate: " ++ e))
  | .ok r => (some (.bk (bookResultToBook r)), none)

/-- The extract stage worker as a function of the untyped payload; the Go
code type-asserts, which panics on a wrong shape and is unreachable in
the composed flow. -/
def extractStageWorker (liveExtractors : List ExtractorFn) :
    Item → Option Item × Option String
  | .bk b => extractWorker liveExtractors b
  | _ => (none, some "invalid payload shape")

/-- The search stage worker over the untyped payload. -/
def searchStageWorker (dryRun : Bool) (liveProviders : List ProviderFn) :
    Item → Option Item × Option String
  | .terms t => searchWorker dryRun liveProviders t
  | _ => (none, some "invalid payload shape")

/-- The collate stage worker over the untyped payload. -/
def collateStageWorker : Item → Option Item × Option String
  | .results rs => collateWorker rs
  | _ => (none, some "invalid payload shape")

/-- BookManager.finishBook: drop a filepath already in the processed
map, else journal the book and insert it. -/
def finishBook (books : List (String × Book)) (b : Book) :
    List (String × Book) :=
  if ((books.find? (fun kv => kv.1 == b.filepath)).isSome) then books
  else books ++ [(b.filepath, b)]

/-- BookManager.failHandler: a Book payload is finished carrying the
error message; SearchTerms and result-list payloads are dropped; a nil
payload is only logged. -/
def failHandler (books : List (String × Book)) (a : Option Item)
    (err : Option String) : List (String × Book) :=
  match a with
  | none => books
  | some (.bk b) => finishBook books { b with errorMessage := err.getD "" }
  | some (.terms _) => books
  | some (.results _) => books

/-- pipeline.Stage.Run on one input item: run the worker; when the result
is nil or the error non-nil, hand the input item to the fail-handler and
forward nothing; otherwise forward the result. -/
def runStage (worker : Item → Option Item × Option String)
    (books : List (String × Book)) (input : Item) :
    List (String × Book) × Option Item :=
  let (result, err) := worker input
  if result = none ∨ err ≠ none then
    (failHandler books (some input) err, none)
  else (books, result)

/-- One book through extract, search, collate and the finish collector,
with the processed-book map threaded through. -/
def processOneBook (liveExtractors : List ExtractorFn)
    (liveProviders : List ProviderFn) (dryRun : Bool) (b : Book)
    (books0 : List (String × Book)) : List (String × Book) :=
  let s1 := runStage (extractStageWorker liveExtractors) books0 (.bk b)
  match s1.2 with
  | none => s1.1
  | some it1 =>
    let s2 := runStage (searchStageWorker dryRun liveProviders) s1.1 it1
    match s2.2 with
    | none => s2.1
    | some it2 =>
      let s3 := runStage collateStageWorker s2.1 it2
      match s3.2 with
      | none => s3.1
      | some (.bk fin) => finishBook s3.1 fin
      | some _ => s3.1

/-! Concrete fixtures used by the claim theorems below. -/

/-- An inner provider whose lookups always succeed with status 200. -/
def okInner : InnerProvider :=
  { name := "Google", findRes := fun _ _ => (zeroBookResult, none, 200) }

/-- An inner provider whose lookups fail with a non-429 status. -/
def failInner : InnerProvider :=
  { name := "Google", findRes := fun _ _ => (zeroBookResult, some "boom", 500) }

/-- An inner provider that reports HTTP 429 with a rate-limit error. -/
def rateLimitedInner : InnerProvider :=
  { name := "Google",
    findRes := fun _ _ => (zeroBookResult, some "rate limited", 429) }

/-- The Generic wrapper around the Google provider, as NewGoogle builds
it: the name is the Google name and findRes is Google.FindResult under a
fixed HTTP outcome. -/
def googleInner (h : GoogleHttp) : InnerProvider :=
  { name := "Google", findRes := googleFindResult h }

/-- A wrapper state with a disabled latch and one cached ISBN. -/
def disabledCachedState : WrapperState :=
  { cache := [("1718501269", zeroBookResult)], disabled := true }

/-- A Google item whose volume title is the single letter a. -/
def itemTitleA : GoogleItem := ⟨⟨"a", [], [], ""⟩⟩

/-- A Google item whose volume title is the single letter b. -/
def itemTitleB : GoogleItem := ⟨⟨"b", [], [], ""⟩⟩

/-- A well-formed two-item Google response with titles a and b. -/
def googleRespAB : GoogleHttp :=
  .response 200 (.ok ⟨2, [itemTitleA, itemTitleB]⟩)

/-- Ten distinct writer items. -/
def tenItems : List WItem :=
  (List.range 10).map (fun k => { key := toString k, data := "1" })

/-- An extractor that extracts the text hello world from any book. -/
def helloExtractor : ExtractorFn := fun _ => .ok "hello world"

/-- A provider that returns a successful empty result list. -/
def emptyProvider : ProviderFn := fun _ => .ok []

/-- The book the end-to-end counterexample feeds into the pipeline. -/
def bookA : Book := { emptyBook with filepath := "/a.pdf" }

/-- The canonical copyright-page test text (howToHackLikeAGhost in the
repository test suite). -/
def howToHackLikeAGhost : String :=
  "            <p>ISBN-13: 978-1-7185-0126-3 (print) \nISBN-13: 978-1-7185-0127-0 (ebook)\n</p>\nIdentifiers: LCCN 2020052503 (print) | LCCN 2020052504 (ebook) | ISBN \n   9781718501263 (paperback) | ISBN 1718501269 (paperback) | ISBN \n   9781718501270 (ebook)  \nSubjects: LCSH: Computer networks--Security measures. | Hacking. | Cloud \n   computing--Security measures. | Penetration testing (Computer networks) \nClassification: LCC TK5105.59 .F624 2021  (print) | LCC TK5105.59  (ebook) \n   | DDC 005.8/7--dc23 \nLC record available at https://lccn.loc.gov/2020052503\nLC ebook record available at https://lccn.loc.gov/2020052504\n</p>"

end Booker

namespace Booker

theorem candLoop_iff (cs : List Char) :
    candLoop cs = true ↔ ∀ c ∈ cs, c = 'X' ∨ ('0' ≤ c ∧ c ≤ '9') := by
  induction cs with
  | nil => simp [candLoop]
  | cons c cs ih =>
    by_cases hX : c = 'X'
    · subst hX
      rw [candLoop, if_neg (by simp), if_neg (by simp), ih]
      simp
    · by_cases h9 : c > '9'
      · rw [candLoop, if_pos ⟨hX, h9⟩]
        simp only [Bool.false_eq_true, false_iff, not_forall]
        refine ⟨c, .head _, ?_⟩
        rintro (h | ⟨_, hle⟩)
        · exact hX h
        · exact absurd h9 (not_lt.mpr hle)
      · by_cases h0 : c < '0'
        · rw [candLoop, if_neg (by tauto), if_pos ⟨hX, h0⟩]
          simp only [Bool.false_eq_true, false_iff, not_forall]
          refine ⟨c, .head _, ?_⟩
          rintro (h | ⟨hge, _⟩)
          · exact hX h
          · exact absurd h0 (not_lt.mpr hge)
        · rw [candLoop, if_neg (by tauto), if_neg (by tauto), ih]
          constructor
          · intro h d hd
            rcases List.mem_cons.mp hd with rfl | hd
            · exact Or.inr ⟨not_lt.mp h0, not_lt.mp h9⟩
            · exact h d hd
          · intro h d hd
            exact h d (List.mem_cons_of_mem _ hd)

theorem isbn10Loop_none (cs : List Char) :
    ∀ (total i : Nat) (acc : Int),
      (∀ c ∈ cs, c = 'X' ∨ ('0' ≤ c ∧ c ≤ '9')) →
      (∃ j, cs.get? j = some 'X' ∧ i + j ≠ total - 1) →
      isbn10Loop cs total i acc = none := by
  induction cs with
  | nil => intro total i acc _ ⟨j, hj, _⟩; simp at hj
  | cons c cs ih =>
    intro total i acc hcls ⟨j, hj, hne⟩
    have hXnotdig : ¬ ('0' ≤ 'X' ∧ 'X' ≤ '9') := by decide
    have htail : ∀ c ∈ cs, c = 'X' ∨ ('0' ≤ c ∧ c ≤ '9') :=
      fun d hd => hcls d (List.mem_cons_of_mem _ hd)
    match j, hj, hne with
    | 0, hj, hne =>
      have hc : c = 'X' := by simpa using hj
      subst hc
      have hi : i ≠ total - 1 := by omega
      rw [isbn10Loop, if_neg hXnotdig, if_pos rfl, if_pos hi]
    | j + 1, hj, hne =>
      have hrest : cs.get? j = some 'X' := by simpa using hj
      have hne1 : (i + 1) + j ≠ total - 1 := by omega
      rcases hcls c (.head _) with rfl | hdig
      · rw [isbn10Loop, if_neg hXnotdig, if_pos rfl]
        by_cases hil : i ≠ total - 1
        · rw [if_pos hil]
        · rw [if_neg hil]
          exact ih total (i + 1) _ htail ⟨j, hrest, hne1⟩
      · rw [isbn10Loop, if_pos hdig]
        exact ih total (i + 1) _ htail ⟨j, hrest, hne1⟩

theorem isbn10Loop_some (cs : List Char) :
    ∀ (total i : Nat) (acc : Int),
      (∀ c ∈ cs, c = 'X' ∨ ('0' ≤ c ∧ c ≤ '9')) →
      (∀ j, cs.get? j = some 'X' → i + j = total - 1) →
      isbn10Loop cs total i acc = some (acc + isbn10ClaimSum cs i) := by
  induction cs with
  | nil => intro total i acc _ _; rw [isbn10Loop, isbn10ClaimSum]; simp
  | cons c cs ih =>
    intro total i acc hcls hX
    have hXnotdig : ¬ ('0' ≤ 'X' ∧ 'X' ≤ '9') := by decide
    have htail : ∀ c ∈ cs, c = 'X' ∨ ('0' ≤ c ∧ c ≤ '9') :=
      fun d hd => hcls d (List.mem_cons_of_mem _ hd)
    have hXtail : ∀ j, cs.get? j = some 'X' → (i + 1) + j = total - 1 := by
      intro j hj
      have := hX (j + 1) (by simpa using hj)
      omega
    rcases hcls c (.head _) with rfl | hdig
    · have hi : i = total - 1 := by simpa using hX 0 (by simp)
      rw [isbn10Loop, if_neg hXnotdig, if_pos rfl, if_neg (by omega : ¬ i ≠ total - 1)]
      rw [ih total (i + 1) _ htail hXtail]
      rw [isbn10ClaimSum, if_neg hXnotdig, if_pos rfl]
      congr 1
      ring
    · rw [isbn10Loop, if_pos hdig]
      rw [ih total (i + 1) _ htail hXtail]
      rw [isbn10ClaimSum, if_pos hdig]
      congr 1
      ring

theorem isbn10IsValid_iff_claim (s : String) (hs : digitsOrX s) :
    isbn10IsValid s = true ↔ isbn10ClaimValid s := by
  by_cases hE : ∃ j, s.data.get? j = some 'X' ∧ j ≠ s.length - 1
  · obtain ⟨j, hj, hne⟩ := hE
    have hnone : isbn10Loop s.data s.length 0 0 = none :=
      isbn10Loop_none s.data s.length 0 0 hs ⟨j, hj, by omega⟩
    unfold isbn10IsValid
    rw [hnone]
    simp only [Bool.false_eq_true, false_iff]
    intro ⟨hall, _⟩
    exact hne (hall j hj)
  · push_neg at hE
    have hsome : isbn10Loop s.data s.length 0 0 = some (0 + isbn10ClaimSum s.data 0) :=
      isbn10Loop_some s.data s.length 0 0 hs (fun j hj => by
        have := hE j hj
        omega)
    unfold isbn10IsValid
    rw [hsome]
    simp only [zero_add, beq_iff_eq]
    unfold isbn10ClaimValid
    constructor
    · intro h
      exact ⟨fun j hj => hE j hj, h⟩
    · intro ⟨_, h⟩
      exact h

end Booker

namespace Booker

theorem char_digit_bounds (c : Char) (h : '0' ≤ c ∧ c ≤ '9') :
    48 ≤ c.toNat ∧ c.toNat ≤ 57 := by
  obtain ⟨h1, h2⟩ := h
  simp [Char.le_def] at h1 h2
  exact ⟨h1, h2⟩

theorem ctoi13_digit (c : Char) (h : '0' ≤ c ∧ c ≤ '9') :
    ctoi13 c = c.toNat - 48 := by
  obtain ⟨h48, h57⟩ := char_digit_bounds c h
  unfold ctoi13
  have he : c.toNat + 2 ^ 64 - 48 = (c.toNat - 48) + 2 ^ 64 := by omega
  rw [he, Nat.add_mod_right]
  exact Nat.mod_eq_of_lt (by omega)

theorem isbn13ClaimSum_le (cs : List Char) :
    ∀ mult, (∀ c ∈ cs, '0' ≤ c ∧ c ≤ '9') → (mult = 1 ∨ mult = 3) →
      isbn13ClaimSum cs mult ≤ 27 * cs.length := by
  induction cs with
  | nil => intro mult _ _; simp [isbn13ClaimSum]
  | cons c cs ih =>
    intro mult hd hm
    have hc := char_digit_bounds c (hd c (.head _))
    have htail := ih (mult ^^^ 2)
      (fun d hd2 => hd d (List.mem_cons_of_mem _ hd2))
      (by rcases hm with rfl | rfl
          · exact Or.inr (by decide)
          · exact Or.inl (by decide))
    rw [isbn13ClaimSum]
    have hterm : mult * (c.toNat - 48) ≤ 27 := by
      rcases hm with rfl | rfl <;> omega
    simp only [List.length_cons]
    omega

theorem isbn13Fold_eq (cs : List Char) :
    ∀ mult acc, (∀ c ∈ cs, '0' ≤ c ∧ c ≤ '9') → (mult = 1 ∨ mult = 3) →
      acc + isbn13ClaimSum cs mult < 2 ^ 64 →
      (cs.foldl isbn13Step (mult, acc)).2 = acc + isbn13ClaimSum cs mult := by
  induction cs with
  | nil => intro mult acc _ _ _; rw [List.foldl_nil, isbn13ClaimSum]; rfl
  | cons c cs ih =>
    intro mult acc hd hm hb
    have hdig := hd c (.head _)
    have hctoi := ctoi13_digit c hdig
    have hsum : isbn13ClaimSum (c :: cs) mult =
        mult * (c.toNat - 48) + isbn13ClaimSum cs (mult ^^^ 2) := by
      rw [isbn13ClaimSum]
    rw [hsum] at hb ⊢
    have hnowrap : acc + mult * ctoi13 c < 2 ^ 64 := by
      rw [hctoi]
      omega
    have hstep : isbn13Step (mult, acc) c =
        (mult ^^^ 2, acc + mult * (c.toNat - 48)) := by
      unfold isbn13Step
      rw [Nat.mod_eq_of_lt hnowrap, hctoi]
    rw [List.foldl_cons, hstep]
    rw [ih (mult ^^^ 2) (acc + mult * (c.toNat - 48))
      (fun d hd2 => hd d (List.mem_cons_of_mem _ hd2))
      (by rcases hm with rfl | rfl
          · exact Or.inr (by decide)
          · exact Or.inl (by decide))
      (by omega)]
    omega

theorem isbn13IsValid_iff_claim (t : String) (ht : allDigits t)
    (hlen : t.length ≤ 2 ^ 50) :
    isbn13IsValid t = true ↔ isbn13ClaimSum t.data 1 % 10 = 0 := by
  have hlen2 : t.data.length ≤ 2 ^ 50 := hlen
  have hbound : (0 : Nat) + isbn13ClaimSum t.data 1 < 2 ^ 64 := by
    have := isbn13ClaimSum_le t.data 1 ht (Or.inl rfl)
    have h27 : 27 * t.data.length ≤ 27 * 2 ^ 50 := by omega
    have : isbn13ClaimSum t.data 1 ≤ 27 * 2 ^ 50 := le_trans this h27
    have hlt : 27 * 2 ^ 50 < 2 ^ 64 := by norm_num
    omega
  unfold isbn13IsValid
  rw [isbn13Fold_eq t.data 1 0 ht (Or.inl rfl) hbound]
  simp [beq_iff_eq]

/-- Claim C6.  The checksum validators agree with the claimed standard
checksums on their intended character classes: for a string of digits with
X permitted, ISBN-10 validity is exactly the weights-10-down-to-1
divisibility-by-11 rule with X only as the last character; for a digit
string (of any realistic length), ISBN-13 validity is exactly the
alternating 1/3-weighted divisibility-by-10 rule; and the concrete
vectors of the claim evaluate as claimed. -/
theorem isbn_checksum_characterization (s t : String)
    (hs : digitsOrX s) (ht : allDigits t) (hlen : t.length ≤ 2 ^ 50) :
    (isbn10IsValid s = true ↔ isbn10ClaimValid s) ∧
    (isbn13IsValid t = true ↔ isbn13ClaimSum t.data 1 % 10 = 0) ∧
    isbn10IsValid "1718501269" = true ∧
    isbn13IsValid "9781718501263" = true ∧
    isbn13IsValid "9781718501270" = true ∧
    isbn13IsValid "1234567891123" = false :=
  ⟨isbn10IsValid_iff_claim s hs, isbn13IsValid_iff_claim t ht hlen,
    by decide, by decide, by decide, by decide⟩

/-- Witness for C6 at the concrete vectors of the claim. -/
theorem isbn_checksum_characterization_witness :
    (isbn10IsValid "1718501269" = true ↔ isbn10ClaimValid "1718501269") ∧
    (isbn13IsValid "9781718501263" = true ↔
      isbn13ClaimSum "9781718501263".data 1 % 10 = 0) ∧
    isbn10IsValid "1718501269" = true ∧
    isbn13IsValid "9781718501263" = true ∧
    isbn13IsValid "9781718501270" = true ∧
    isbn13IsValid "1234567891123" = false :=
  isbn_checksum_characterization "1718501269" "9781718501263"
    (by unfold digitsOrX; decide) (by unfold allDigits; decide) (by decide)

/-- Counterexample to claim C7 as stated: the candidate filter accepts X
away from the terminal position (the character loop admits X anywhere in
either admissible length), refuting the claimed only-terminal-X rule. -/
theorem isbn_candidate_x_position_counterexample :
    IsIsbnCandidate "X234567890" = true ∧ ¬ candidateClaim "X234567890" := by
  constructor
  · decide
  · intro ⟨_, hchars, _⟩
    have := hchars (0, 'X') (by decide)
    simp at this

/-- Claim C7 as amended: IsIsbnCandidate holds exactly when the length is
10 or 13, every character of the upper-cased string is a digit or X (so x
and X are admitted at any position, in either length), and the string is
not blacklisted; the concrete vectors of the claim evaluate as claimed. -/
theorem isbn_candidate_characterization (s : String) :
    (IsIsbnCandidate s = true ↔
      ((s.length = 10 ∨ s.length = 13) ∧
        (∀ c ∈ (toUpperStr s).data, c = 'X' ∨ ('0' ≤ c ∧ c ≤ '9')) ∧
        ¬ s ∈ badIsbns)) ∧
    IsIsbnCandidate "123" = false ∧
    IsIsbnCandidate "11111111111" = false ∧
    IsIsbnCandidate "1718501269" = true := by
  refine ⟨?_, by decide, by decide, by decide⟩
  unfold IsIsbnCandidate
  by_cases hlen : s.length ≠ 10 ∧ s.length ≠ 13
  · rw [if_pos hlen]
    simp only [Bool.false_eq_true, false_iff]
    intro ⟨hl, _, _⟩
    tauto
  · rw [if_neg hlen]
    by_cases hcand : candLoop (toUpperStr s).data
    · rw [if_pos hcand]
      have hchars := (candLoop_iff (toUpperStr s).data).mp hcand
      have hcontains : badIsbns.contains s = true ↔ s ∈ badIsbns := by
        simp [List.contains]
      constructor
      · intro hbl
        simp only [Bool.not_eq_eq_eq_not, Bool.not_true] at hbl
        refine ⟨by tauto, hchars, fun hmem => ?_⟩
        rw [hcontains.mpr hmem] at hbl
        exact Bool.true_eq_false.mp hbl
      · intro ⟨_, _, hnm⟩
        simp only [Bool.not_eq_eq_eq_not, Bool.not_true]
        rw [Bool.eq_false_iff]
        intro hc
        exact hnm (hcontains.mp hc)
    · rw [if_neg hcand]
      simp only [Bool.false_eq_true, false_iff]
      intro ⟨_, hchars, _⟩
      exact hcand ((candLoop_iff (toUpperStr s).data).mpr hchars)

/-- Claim C10.  The checksum validators enforce neither length nor
character set: both validators accept the empty string (empty sum zero),
ISBN-10 validation even accepts a string of letters (non-digit characters
are silently skipped), and validity therefore does not imply candidacy. -/
theorem validators_enforce_no_shape :
    isbn10IsValid "" = true ∧
    isbn13IsValid "" = true ∧
    IsIsbnCandidate "" = false ∧
    isbn10IsValid "zzzzzzzzzz" = true ∧
    IsIsbnCandidate "zzzzzzzzzz" = false ∧
    ¬ (∀ s, isbn10IsValid s = true → IsIsbnCandidate s = true) ∧
    ¬ (∀ s, isbn13IsValid s = true → IsIsbnCandidate s = true) :=
  ⟨by decide, by decide, by decide, by decide, by decide,
    fun h => absurd (h "" (by decide)) (by decide),
    fun h => absurd (h "" (by decide)) (by decide)⟩

end Booker

namespace Booker

set_option maxRecDepth 100000 in
/-- Claim C8.  Running the ISBN-10 identification over the canonical
copyright-page test text yields exactly the claimed ordered list: matches
in order, cleaned, candidate-filtered, checksum-filtered, duplicates
kept. -/
theorem identify_isbn10s_canonical_blob :
    IdentifyIsbn10s howToHackLikeAGhost =
      ["2020052504", "1718501269", "2020052504"] := by
  decide

/-- Counterexample to claim C2 as stated: with the disabled latch set and
the ISBN present in the cache, findResult returns the cached result with
a nil error rather than failing with a self-disabled error, because the
cache lookup precedes the disabled check. -/
theorem disabled_cached_lookup_counterexample :
    disabledCachedState.disabled = true ∧
    (findResult rateLimitedInner disabledCachedState "1718501269" "/a.pdf").err
      = none ∧
    (findResult rateLimitedInner disabledCachedState "1718501269" "/a.pdf").result
      = zeroBookResult := by
  refine ⟨by decide, by decide, by decide⟩

/-- Claim C2 as amended: a disabled wrapper never consumes a tick, never
calls the inner provider and never changes state; a lookup for an ISBN
missing from the cache fails immediately with the self-disabled error,
while a cached ISBN instead returns the cached result with a nil error. -/
theorem disabled_wrapper_behavior (inner : InnerProvider) (g : WrapperState)
    (isbn filePath : String) (hdis : g.disabled = true) :
    (findResult inner g isbn filePath).tickConsumed = false ∧
    (findResult inner g isbn filePath).innerCalled = false ∧
    (findResult inner g isbn filePath).state = g ∧
    (cacheLoad g.cache isbn = none →
      (findResult inner g isbn filePath).err =
        some (inner.name ++
          " provider self-disabled, probably due to rate limit")) ∧
    (∀ r, cacheLoad g.cache isbn = some r →
      (findResult inner g isbn filePath).result = r ∧
      (findResult inner g isbn filePath).err = none) := by
  cases hc : cacheLoad g.cache isbn with
  | some r =>
    refine ⟨?_, ?_, ?_, ?_, ?_⟩ <;> simp [findResult, hc]
  | none =>
    refine ⟨?_, ?_, ?_, ?_, ?_⟩ <;> simp [findResult, hc, hdis]

/-- Witness for C2 at a concrete disabled wrapper and uncached ISBN. -/
theorem disabled_wrapper_behavior_witness :
    (findResult okInner { cache := [], disabled := true } "i" "f").tickConsumed
      = false ∧
    (findResult okInner { cache := [], disabled := true } "i" "f").innerCalled
      = false ∧
    (findResult okInner { cache := [], disabled := true } "i" "f").err =
      some "Google provider self-disabled, probably due to rate limit" := by
  have h := disabled_wrapper_behavior okInner
    { cache := [], disabled := true } "i" "f" rfl
  refine ⟨h.1, h.2.1, ?_⟩
  have h2 := h.2.2.2.1 (by decide)
  rw [h2]
  decide

theorem findResult_miss_spec (inner : InnerProvider) (g : WrapperState)
    (isbn filePath : String) (r : BookResult) (e : Option String) (code : Nat)
    (hmiss : cacheLoad g.cache isbn = none) (hdis : g.disabled = false)
    (hfr : inner.findRes isbn filePath = (r, e, code)) :
    findResult inner g isbn filePath =
      (if code = 429 then
        { result := zeroBookResult, err := e,
          state := { g with disabled := true },
          tickConsumed := true, innerCalled := true }
      else
        { result := r, err := e,
          state := if e.isSome then
              { g with cache := cacheStore g.cache isbn r }
            else g,
          tickConsumed := true, innerCalled := true }) := by
  by_cases h429 : code = 429
  · subst h429
    simp [findResult, hmiss, hdis, hfr]
  · simp [findResult, hmiss, hdis, hfr, h429]

/-- Counterexample to claim C3 as stated: a lookup whose inner call fails
with status 429 is not cached (the 429 path returns before the store), so
not every failed lookup is cached. -/
theorem rate_limited_failure_not_cached_counterexample :
    (findResult rateLimitedInner { cache := [], disabled := false } "i" "f").err
      = some "rate limited" ∧
    (findResult rateLimitedInner
        { cache := [], disabled := false } "i" "f").state.cache = [] ∧
    (findResult rateLimitedInner
        { cache := [], disabled := false } "i" "f").state.disabled = true := by
  refine ⟨by decide, by decide, by decide⟩

/-- Claim C3 as amended: for an uncached, non-disabled lookup the cache is
updated exactly when the inner error is non-nil AND the status code is
not 429, and what is stored is the inner result. -/
theorem uncached_lookup_cache_policy (inner : InnerProvider)
    (g : WrapperState) (isbn filePath : String)
    (hmiss : cacheLoad g.cache isbn = none) (hdis : g.disabled = false) :
    (findResult inner g isbn filePath).state.cache =
      (if (inner.findRes isbn filePath).2.1.isSome ∧
          (inner.findRes isbn filePath).2.2 ≠ 429
       then cacheStore g.cache isbn (inner.findRes isbn filePath).1
       else g.cache) := by
  rcases hfr : inner.findRes isbn filePath with ⟨r, e, code⟩
  rw [findResult_miss_spec inner g isbn filePath r e code hmiss hdis hfr]
  by_cases h429 : code = 429
  · subst h429
    simp
  · cases e with
    | none => simp [h429]
    | some msg => simp [h429]

/-- Witness for C3 at a concrete failing non-429 inner provider. -/
theorem uncached_lookup_cache_policy_witness :
    (findResult failInner { cache := [], disabled := false } "i" "f").state.cache
      = cacheStore [] "i" zeroBookResult := by
  have h := uncached_lookup_cache_policy failInner
    { cache := [], disabled := false } "i" "f" rfl rfl
  rw [h]
  decide

end Booker

namespace Booker

theorem googleFindResult_err_zero (h : GoogleHttp) (isbn fp e : String)
    (herr : (googleFindResult h isbn fp).2.1 = some e) :
    (googleFindResult h isbn fp).1 = zeroBookResult := by
  cases h with
  | getError msg => rfl
  | response code dec =>
    by_cases hc : code = 200
    · subst hc
      cases dec with
      | error msg => simp [googleFindResult]
      | ok result =>
        by_cases ht : result.totalItems = 0
        · simp [googleFindResult, ht] at herr
        · cases hsel : (googleSelect (baseName fp) result.items).2 with
          | none => simp [googleFindResult, ht, hsel]
          | some best => simp [googleFindResult, ht, hsel] at herr
    · simp [googleFindResult, hc]

theorem cacheLoad_store (cache : List (String × BookResult)) (isbn : String)
    (r : BookResult) : cacheLoad (cacheStore cache isbn r) isbn = some r := by
  unfold cacheLoad cacheStore
  rw [List.find?_cons_of_pos _ (by simp)]
  rfl

theorem findResult_hit (inner : InnerProvider) (g : WrapperState)
    (isbn filePath : String) (r : BookResult)
    (h : cacheLoad g.cache isbn = some r) :
    findResult inner g isbn filePath =
      { result := r, err := none, state := g,
        tickConsumed := false, innerCalled := false } := by
  unfold findResult
  rw [h]

theorem chooseFold_inv (l : List BookResult) :
    ∀ acc : ℚ × Option BookResult, 0 ≤ acc.1 →
      (∀ b, acc.2 = some b → ∃ q, b.confidence = GoFloat.val q ∧ 0 < q) →
      0 ≤ (l.foldl chooseStep acc).1 ∧
        ∀ b, (l.foldl chooseStep acc).2 = some b →
          ∃ q, b.confidence = GoFloat.val q ∧ 0 < q := by
  induction l with
  | nil => intro acc h0 hb; exact ⟨h0, hb⟩
  | cons br l ih =>
    intro acc h0 hb
    rw [List.foldl_cons]
    cases hcf : br.confidence with
    | nan =>
      have hstep : chooseStep acc br = acc := by
        unfold chooseStep
        rw [hcf]
      rw [hstep]
      exact ih acc h0 hb
    | val c =>
      by_cases hgt : c > acc.1
      · have hstep : chooseStep acc br = (c, some br) := by
          unfold chooseStep
          rw [hcf]
          show (if c > acc.1 then ((c : ℚ), some br) else acc) = (c, some br)
          rw [if_pos hgt]
        rw [hstep]
        refine ih (c, some br) (le_of_lt (lt_of_le_of_lt h0 hgt)) ?_
        intro b hbb
        cases hbb
        exact ⟨c, hcf, lt_of_le_of_lt h0 hgt⟩
      · have hstep : chooseStep acc br = acc := by
          unfold chooseStep
          rw [hcf]
          show (if c > acc.1 then ((c : ℚ), some br) else acc) = acc
          rw [if_neg hgt]
        rw [hstep]
        exact ih acc h0 hb

theorem chooseBestResult_pos (rs : List BookResult) (br : BookResult)
    (h : ChooseBestResult rs = .ok br) :
    ∃ q, br.confidence = GoFloat.val q ∧ 0 < q := by
  unfold ChooseBestResult at h
  by_cases hlen : rs.length = 0
  · rw [if_pos hlen] at h
    exact absurd h (by simp)
  · rw [if_neg hlen] at h
    have hinv := chooseFold_inv rs (0, none) le_rfl (by simp)
    cases hfold : (rs.foldl chooseStep (0, none)).2 with
    | none => rw [hfold] at h; exact absurd h (by simp)
    | some best =>
      rw [hfold] at h
      have : best = br := by
        cases h
        rfl
      subst this
      exact hinv.2 best hfold

/-- Claim C9.  After an uncached, non-disabled Google lookup fails with a
non-429 error, the cache maps the ISBN to the zero BookResult (the Google
provider returns the zero result on every error path), a later lookup of
that ISBN replays the zero result with a nil error, and the zero result
can never be selected by ChooseBestResult, which only returns results of
strictly positive confidence. -/
theorem failed_google_lookup_replay (h : GoogleHttp) (g : WrapperState)
    (isbn fp fp2 e : String)
    (hmiss : cacheLoad g.cache isbn = none) (hdis : g.disabled = false)
    (herr : (googleFindResult h isbn fp).2.1 = some e)
    (hcode : (googleFindResult h isbn fp).2.2 ≠ 429) :
    cacheLoad (findResult (googleInner h) g isbn fp).state.cache isbn =
      some zeroBookResult ∧
    (findResult (googleInner h)
        (findResult (googleInner h) g isbn fp).state isbn fp2).result =
      zeroBookResult ∧
    (findResult (googleInner h)
        (findResult (googleInner h) g isbn fp).state isbn fp2).err = none ∧
    (∀ rs br, ChooseBestResult rs = .ok br →
      ∃ q, br.confidence = GoFloat.val q ∧ 0 < q) := by
  have hzero := googleFindResult_err_zero h isbn fp e herr
  rcases hfr : googleFindResult h isbn fp with ⟨r, e2, code⟩
  have hr : r = zeroBookResult := by rw [hfr] at hzero; exact hzero
  have he2 : e2 = some e := by rw [hfr] at herr; exact herr
  have hcode2 : code ≠ 429 := by rw [hfr] at hcode; exact hcode
  subst hr he2
  have hspec := findResult_miss_spec (googleInner h) g isbn fp
    zeroBookResult (some e) code hmiss hdis hfr
  rw [if_neg hcode2] at hspec
  have hcache : (findResult (googleInner h) g isbn fp).state.cache =
      cacheStore g.cache isbn zeroBookResult := by
    rw [hspec]
    simp
  have hload := cacheLoad_store g.cache isbn zeroBookResult
  have hhit : cacheLoad (findResult (googleInner h) g isbn fp).state.cache isbn
      = some zeroBookResult := by
    rw [hcache]
    exact hload
  refine ⟨hhit, ?_, ?_, chooseBestResult_pos⟩
  · rw [findResult_hit _ _ _ _ _ hhit]
  · rw [findResult_hit _ _ _ _ _ hhit]

/-- Witness for C9 at a concrete failed Google HTTP request. -/
theorem failed_google_lookup_replay_witness :
    cacheLoad
      (findResult (googleInner (.getError "boom"))
        { cache := [], disabled := false } "i" "f").state.cache "i" =
      some zeroBookResult ∧
    (findResult (googleInner (.getError "boom"))
      (findResult (googleInner (.getError "boom"))
        { cache := [], disabled := false } "i" "f").state "i" "g").result =
      zeroBookResult ∧
    (findResult (googleInner (.getError "boom"))
      (findResult (googleInner (.getError "boom"))
        { cache := [], disabled := false } "i" "f").state "i" "g").err =
      none := by
  have h := failed_google_lookup_replay (.getError "boom")
    { cache := [], disabled := false } "i" "f" "g" "boom" rfl rfl rfl
    (by decide)
  exact ⟨h.1, h.2.1, h.2.2.1⟩

end Booker

namespace Booker

/-- Claim C5, recorded as a code bug.  The source comment on
LevenshteinDistance names the standard two-row algorithm, but the
implementation deviates from it (rows of length n, loops stopping one
character early, and the two row variables aliasing one array), so
Google.FindResult does not minimise the standard edit distance: with
items titled a and b for the file b, the implemented distance rates a at
0 and the selection picks the item titled a, while the standard distance
is minimised uniquely by the item titled b. -/
theorem google_selection_divergence :
    LevenshteinDistance "a" "b" = 0 ∧
    levenshteinSpec "a".data "b".data = 1 ∧
    levenshteinSpec "b".data "b".data = 0 ∧
    (googleFindResult googleRespAB "isbn" "b").1.title = some "a" ∧
    (googleFindResult googleRespAB "isbn" "b").2.1 = none := by
  refine ⟨by decide, ?_, ?_, by decide, by decide⟩
  · show levenshteinSpec ['a'] ['b'] = 1
    simp [levenshteinSpec]
  · show levenshteinSpec ['b'] ['b'] = 0
    simp [levenshteinSpec]

/-- Counterexample to claim C4 as stated: the generic writer's consumer
loop has no batch path, so on a quiescent channel holding exactly the
batch threshold of items it writes ten single items instead of one
batch. -/
theorem generic_writer_never_batches_counterexample :
    tenItems.length = 10 ∧
    writerLoopGeneric tenItems = tenItems.map WEvent.single ∧
    writerLoopGeneric tenItems ≠ [WEvent.batch tenItems] := by
  refine ⟨by decide, by decide, by decide⟩

theorem writerLoopAux_small (fuel : Nat) :
    ∀ q : List WItem, q.length < fuel → q.length < batchThreshold →
      writerLoopAux fuel q = q.map WEvent.single := by
  have hbt : batchThreshold = 10 := rfl
  induction fuel with
  | zero => intro q hf _; omega
  | succ fuel ih =>
    intro q hf ht
    simp only [writerLoopAux]
    rw [if_neg (by omega), if_neg (by omega)]
    cases q with
    | nil => rfl
    | cons i rest =>
      show [] ++ WEvent.single i :: writerLoopAux fuel rest =
        List.map WEvent.single (i :: rest)
      rw [ih rest (by simp at hf; omega) (by simp at ht; omega)]
      rfl

/-- Claim C4 as amended: the non-generic writer's consumer batches — on a
quiescent channel holding at least the threshold it reads exactly the
channel depth and writes those items as one batch under one lock
acquisition with one flush — and handles fewer items singly; the generic
writer's consumer has no batch path and always writes one item at a
time. -/
theorem writer_batching (q : List WItem) :
    (q.length ≥ batchThreshold →
      writerLoop q = [WEvent.batch q] ∧
      ((writerLoop q).map flushes).sum = 1 ∧
      ((writerLoop q).map lockAcquisitions).sum = 1) ∧
    (q.length < batchThreshold → writerLoop q = q.map WEvent.single) ∧
    writerLoopGeneric q = q.map WEvent.single := by
  refine ⟨?_, ?_, ?_⟩
  · intro h
    have h1 : writerLoop q = [WEvent.batch q] := by
      unfold writerLoop
      simp only [writerLoopAux]
      rw [if_pos h, if_pos h, List.take_length, List.drop_length]
    refine ⟨h1, by rw [h1]; rfl, by rw [h1]; rfl⟩
  · intro h
    exact writerLoopAux_small (q.length + 1) q (by omega) h
  · induction q with
    | nil => rfl
    | cons i rest ih =>
      rw [writerLoopGeneric, ih]
      rfl

/-- Witness for C4 at a ten-item queue and a three-item queue. -/
theorem writer_batching_witness :
    writerLoop tenItems = [WEvent.batch tenItems] ∧
    writerLoop (tenItems.take 3) = (tenItems.take 3).map WEvent.single ∧
    writerLoopGeneric tenItems = tenItems.map WEvent.single :=
  ⟨((writer_batching tenItems).1 (by decide)).1,
    (writer_batching (tenItems.take 3)).2.1 (by decide),
    (writer_batching tenItems).2.2⟩

end Booker

namespace Booker

/-- Counterexample to claim C1 as stated: one extractor returning the
text hello world (no ISBN candidates) and one live provider returning an
empty result list make the search stage fail with the empty-result error,
but the fail-handler receives the stage input — a SearchTerms value — and
drops it silently, so the run's output holds no entry at all for the
book's filepath, rather than one entry with the no-results error. -/
theorem empty_search_results_book_dropped_counterexample :
    searchWorker false [emptyProvider] ⟨[], [], "/a.pdf"⟩ =
      (some (Item.results []), some "error: no results found") ∧
    processOneBook [helloExtractor] [emptyProvider] false bookA [] = [] := by
  refine ⟨by decide, by decide⟩

/-- Claim C1 as amended: whenever the extract stage succeeds and the
merged provider result list for the produced search terms is empty, the
search stage fails, the fail-handler drops the SearchTerms payload
silently, and the processed-book map is left unchanged — the book gets no
output entry in this run (in particular no entry carrying the
no-results-found error). -/
theorem empty_search_results_silently_dropped (exs : List ExtractorFn)
    (provs : List ProviderFn) (b : Book) (books0 : List (String × Book))
    (t : SearchTerms)
    (hex : extractWorker exs b = (some (Item.terms t), none))
    (hmerged : mergedResults provs t = []) :
    processOneBook exs provs false b books0 = books0 := by
  have h1 : runStage (extractStageWorker exs) books0 (Item.bk b) =
      (books0, some (Item.terms t)) := by
    unfold runStage extractStageWorker
    simp [hex]
  have h2 : runStage (searchStageWorker false provs) books0 (Item.terms t) =
      (books0, none) := by
    cases provs with
    | nil =>
      unfold runStage searchStageWorker searchWorker
      simp [failHandler]
    | cons p ps =>
      unfold runStage searchStageWorker searchWorker
      simp [hmerged, failHandler]
  unfold processOneBook
  rw [h1]
  dsimp only
  rw [h2]

/-- Witness for C1 as amended at the concrete hello-world scenario. -/
theorem empty_search_results_silently_dropped_witness :
    processOneBook [helloExtractor] [emptyProvider] false bookA
      [("/b.pdf", emptyBook)] = [("/b.pdf", emptyBook)] :=
  empty_search_results_silently_dropped [helloExtractor] [emptyProvider]
    bookA [("/b.pdf", emptyBook)] ⟨[], [], "/a.pdf"⟩ (by decide) (by decide)

end Booker
